import Mathlib

/-!
Verification of the `pubsub` package of victorwong171/go-utils
(`src/business/publisher/pubsub.go`, Message type in the companion file).

The model is a shallow embedding of the Go source:

* `Message` mirrors the Go `Message` struct; the opaque `Data any` payload
  is a type parameter `α`.
* A Go buffered channel `chan *Message` is modelled by `Chan`: a bounded
  FIFO buffer, a `closed` flag, and a `closeCount` bookkeeping field that
  counts how many times `close` was executed on the channel (Go panics on a
  second close; the counter lets theorems speak about "closed exactly once").
* Channel identity (Go reference equality of channels, used as map keys) is
  modelled by a `Nat` id; the heap of all channels ever created is a function
  `Nat → Option Chan`.
* `Publisher` mirrors the Go struct: the configured `buffer` size and the
  `subscribers` registry mapping each live channel id to its optional topic
  filter (`nil` filter = `none`).
* The `sync.RWMutex` and the goroutine-per-dispatch structure of `Publish`
  are modelled twice: first as the deterministic end-to-end effect of each
  exported method (the mutex makes every method body atomic with respect to
  the registry, and dispatch goroutines of one `Publish` target distinct
  channels, so when no consumer drains concurrently the net effect is
  deterministic), and second, further below, as a small-step interleaving
  system `SysState`/`step` that makes the lock, the in-flight dispatch
  goroutines, concurrent consumers and the Go panic on sending to a closed
  channel explicit.
-/

namespace PubSubSpec

/-- Mirror of the Go `Message` struct. `Data any` is the type parameter `α`;
`Expire` is a Go `int` (may be negative), the seconds a delivery attempt may
wait before being abandoned. -/
structure Message (α : Type) where
  Event : String
  Data : α
  Source : String
  TimeStamp : String
  Expire : Int
deriving DecidableEq

/-- Model of a Go buffered channel `chan *Message`: capacity fixed at
creation, FIFO buffer of pending messages, whether `close` has run, and how
many times `close` has run (`closeCount`, bookkeeping for the
closed-exactly-once claims; Go panics if it ever reached 2). -/
structure Chan (α : Type) where
  cap : Nat
  buf : List (Message α)
  closed : Bool
  closeCount : Nat
deriving DecidableEq

/-- A freshly allocated channel: `make(chan *Message, buffer)`. -/
def Chan.mk0 (α : Type) (buffer : Nat) : Chan α :=
  { cap := buffer, buf := [], closed := false, closeCount := 0 }

/-- Enqueue (Go `sub <- v`) on a channel with buffer room. -/
def Chan.send (c : Chan α) (v : Message α) : Chan α :=
  { c with buf := c.buf ++ [v] }

/-- Go semantics of the body of `Evict`/`Close` once the subscription is
found registered, i.e. of

  `select { case <-sub: /* already closed */ ; default: close(sub) }`

A receive case is ready exactly when the buffer is non-empty (it then
consumes one buffered message) or the channel is closed (it then yields the
zero value); only when the receive would block does `default` run and close
the channel. So a non-empty buffer makes the select consume a message
instead of closing. -/
def evictCloseStep (c : Chan α) : Chan α :=
  if c.buf.isEmpty then
    if c.closed then c
    else { c with closed := true, closeCount := c.closeCount + 1 }
  else { c with buf := c.buf.tail }

/-- A topic filter: `topicFunc` or Go `nil` (`none`). -/
abbrev TopicFn (α : Type) : Type := Option (Message α → Bool)

/-- Go guard `topic != nil && !topic(v)` negated: the subscriber accepts
`v` when it has no filter or its filter returns true. -/
def topicAccepts : TopicFn α → Message α → Bool
  | some f, v => f v
  | none, _ => true

/-- Heap of all channels ever created, keyed by channel id. -/
abbrev Heap (α : Type) : Type := Nat → Option (Chan α)

/-- Update the channel stored at `id` (other ids untouched). -/
def hUpdate (h : Heap α) (id : Nat) (f : Chan α → Chan α) : Heap α :=
  fun k => if k = id then (h k).map f else h k

/-- Store a newly created channel at a fresh id. -/
def hInsert (h : Heap α) (id : Nat) (c : Chan α) : Heap α :=
  fun k => if k = id then some c else h k

/-- Mirror of the Go `Publisher` struct: `buffer` is the channel buffer size
for new subscribers, `subscribers` the registry from live channel id to its
topic filter (a Go `map[subscriber]topicFunc`, modelled as an association
list in some iteration order). `heap` holds the state of every channel ever
handed out (Go channels live on after eviction in the caller's hands), and
`nextId` generates fresh channel identities. The `sync.RWMutex` field is
modelled by the small-step system below, not as data here. -/
structure Publisher (α : Type) where
  buffer : Nat
  subscribers : List (Nat × TopicFn α)
  heap : Heap α
  nextId : Nat

/-- Go `NewPublisher(buffer)`: empty registry. -/
def NewPublisher (α : Type) (buffer : Nat) : Publisher α :=
  { buffer := buffer, subscribers := [], heap := fun _ => none, nextId := 0 }

/-- Go `SubscribeTopic`: allocate a fresh channel of the configured buffer
size, register it under the given filter, return it. The returned `Nat` is
the new channel's id. -/
def Publisher.SubscribeTopic (p : Publisher α) (topic : TopicFn α) :
    Nat × Publisher α :=
  (p.nextId,
   { p with
      subscribers := p.subscribers ++ [(p.nextId, topic)]
      heap := hInsert p.heap p.nextId (Chan.mk0 α p.buffer)
      nextId := p.nextId + 1 })

/-- Go `Subscribe`: literally `return p.SubscribeTopic(nil)`. -/
def Publisher.Subscribe (p : Publisher α) : Nat × Publisher α :=
  p.SubscribeTopic none

/-- Go `Evict`: under the lock, if the channel is registered, delete it from
the registry and run the close-guarding `select` (see `evictCloseStep`);
otherwise do nothing. -/
def Publisher.Evict (p : Publisher α) (id : Nat) : Publisher α :=
  match p.subscribers.lookup id with
  | some _ =>
      { p with
          subscribers := p.subscribers.filter (fun e => e.1 != id)
          heap := hUpdate p.heap id evictCloseStep }
  | none => p

/-- Go `Close`: under the lock, iterate over the registry, deleting each
entry and running the same close-guarding `select` on its channel; the
registry is empty afterwards. -/
def Publisher.Close (p : Publisher α) : Publisher α :=
  { p with
      subscribers := []
      heap := p.subscribers.foldl (fun h e => hUpdate h e.1 evictCloseStep) p.heap }

/-- Go `SendTopic`, the per-(subscriber, message) dispatch, as its
deterministic net effect when no consumer drains the queue during the wait
window: if the filter rejects, return unchanged after 0 seconds; if the
buffer has room, `sub <- v` succeeds at once; otherwise the
`time.After(Expire seconds)` case fires after `max Expire 0` seconds (a
negative `Expire` gives an already-elapsed timer) and the message is
abandoned. Returns the updated channel and the seconds the dispatch
goroutine waited. -/
def SendTopic (c : Chan α) (topic : TopicFn α) (v : Message α) :
    Chan α × Nat :=
  if topicAccepts topic v then
    if c.buf.length < c.cap then (c.send v, 0)
    else (c, v.Expire.toNat)
  else (c, 0)

/-- Go `Publish`: under the lock, spawn one `SendTopic` goroutine per
registry entry and wait for all of them. Each goroutine touches only its own
subscriber's channel, so the net effect updates each registered channel by
its own dispatch; the call blocks for the slowest dispatch, i.e. the maximum
of the individual waits. Returns the new state and that blocking time in
seconds. -/
def Publisher.Publish (p : Publisher α) (v : Message α) :
    Publisher α × Nat :=
  ({ p with
      heap := fun k =>
        match p.subscribers.lookup k, p.heap k with
        | some topic, some c => some (SendTopic c topic v).1
        | _, hc => hc },
   p.subscribers.foldl
     (fun w e =>
       Nat.max w (match p.heap e.1 with
                  | some c => (SendTopic c e.2 v).2
                  | none => 0))
     0)

/-!
Small-step interleaving system. It makes explicit what the deterministic
methods above abstract away: the `sync.RWMutex` (every exported method takes
it in write mode, so registry mutations and the whole of `Publish` are
mutually exclusive), the dispatch goroutines of an active `Publish` between
`Lock` and `Unlock`, concurrent consumers draining channels (consumers
never take the lock), and the fact that in Go a `select` whose send case
targets a closed channel panics.
-/

/-- An in-flight dispatch goroutine of an active `Publish`: target channel
id, the filter it was snapshotted with, and the message. -/
def Task (α : Type) : Type := Nat × TopicFn α × Message α

/-- Global state of the interleaving system: the publisher, whether the
mutex is held (it is held exactly while a `Publish` is between `Lock` and
`Unlock`; the other methods run atomically when it is free), the in-flight
dispatch goroutines of the active `Publish`, and whether some goroutine has
panicked (Go: send on a closed channel). -/
structure SysState (α : Type) where
  pub : Publisher α
  lock : Bool
  tasks : List (Task α)
  panicked : Bool

/-- Interleaving events. `subscribe`/`evict`/`closeAll` are whole method
bodies (atomic, they hold the lock for their duration); `startPublish` is
`Publish` up to spawning its goroutines (lock acquired, registry
snapshotted); `taskSkip`/`taskDeliver`/`taskAbandon` are the three ways one
dispatch goroutine finishes; `endPublish` is `wg.Wait()` returning and the
lock being released; `recv id` is an external consumer receiving one
buffered message from its channel. -/
inductive Action (α : Type) where
  | subscribe (topic : TopicFn α)
  | evict (id : Nat)
  | closeAll
  | startPublish (v : Message α)
  | taskSkip (id : Nat)
  | taskDeliver (id : Nat)
  | taskAbandon (id : Nat)
  | endPublish
  | recv (id : Nat)

/-- One step of the interleaving system; `none` when the event is not
enabled. `taskDeliver` on a closed channel sets `panicked` (in Go the send
case of the `select` is ready on a closed channel and choosing it panics),
on an open channel with room it enqueues; `taskAbandon` is the expire timer
firing while the open channel is full. -/
def step (s : SysState α) (a : Action α) : Option (SysState α) :=
  match a with
  | .subscribe t =>
      if s.lock then none
      else some { s with pub := (s.pub.SubscribeTopic t).2 }
  | .evict id =>
      if s.lock then none
      else some { s with pub := s.pub.Evict id }
  | .closeAll =>
      if s.lock then none
      else some { s with pub := s.pub.Close }
  | .startPublish v =>
      if s.lock then none
      else some { s with
        lock := true
        tasks := s.pub.subscribers.map (fun e => (e.1, e.2, v)) }
  | .taskSkip id =>
      match s.tasks.lookup id with
      | some (t, v) =>
          if topicAccepts t v then none
          else some { s with tasks := s.tasks.filter (fun e => e.1 != id) }
      | none => none
  | .taskDeliver id =>
      match s.tasks.lookup id with
      | some (t, v) =>
          if topicAccepts t v then
            match s.pub.heap id with
            | some c =>
                if c.closed then some { s with panicked := true }
                else if c.buf.length < c.cap then
                  some { s with
                    pub := { s.pub with
                              heap := hUpdate s.pub.heap id (fun d => d.send v) }
                    tasks := s.tasks.filter (fun e => e.1 != id) }
                else none
            | none => none
          else none
      | none => none
  | .taskAbandon id =>
      match s.tasks.lookup id with
      | some (t, v) =>
          if topicAccepts t v then
            match s.pub.heap id with
            | some c =>
                if !c.closed && decide (c.cap ≤ c.buf.length) then
                  some { s with tasks := s.tasks.filter (fun e => e.1 != id) }
                else none
            | none => none
          else none
      | none => none
  | .endPublish =>
      if s.lock && s.tasks.isEmpty then some { s with lock := false }
      else none
  | .recv id =>
      match s.pub.heap id with
      | some c =>
          if c.buf.isEmpty then none
          else some { s with
            pub := { s.pub with
                      heap := hUpdate s.pub.heap id (fun d => { d with buf := d.buf.tail }) } }
      | none => none

/-- Run a list of events from a state; `none` if any event is not enabled. -/
def run (s : SysState α) : List (Action α) → Option (SysState α)
  | [] => some s
  | a :: rest =>
      match step s a with
      | some s1 => run s1 rest
      | none => none

/-- Initial state with a fresh publisher of the given buffer size. -/
def initState (α : Type) (buffer : Nat) : SysState α :=
  { pub := NewPublisher α buffer, lock := false, tasks := [], panicked := false }

/-- Reachability from a fresh publisher of the given buffer size. -/
def Reach (buffer : Nat) (s : SysState α) : Prop :=
  ∃ acts : List (Action α), run (initState α buffer) acts = some s

/-- The channel stored at `id` exists and is not closed. -/
def chanOpenH (h : Heap α) (id : Nat) : Bool :=
  match h id with
  | some c => !c.closed
  | none => false

/-- A dispatch goroutine currently blocked sending to a full queue: its
filter accepted the message and its target channel is open and full. -/
def taskWaiting (h : Heap α) (t : Task α) : Bool :=
  topicAccepts t.2.1 t.2.2 &&
    match h t.1 with
    | some c => !c.closed && decide (c.cap ≤ c.buf.length)
    | none => false

/-- Inductive invariant of the interleaving system: no goroutine has
panicked, every registered channel is open, every in-flight dispatch
targets an open channel, and dispatch goroutines only exist while the
publish lock is held. -/
def Inv (s : SysState α) : Prop :=
  s.panicked = false
  ∧ (∀ e ∈ s.pub.subscribers, chanOpenH s.pub.heap e.1 = true)
  ∧ (∀ t ∈ s.tasks, chanOpenH s.pub.heap t.1 = true)
  ∧ (s.lock = false → s.tasks = [])

theorem lookup_mem {β : Type} {l : List (Nat × β)} {a : Nat} {b : β}
    (h : l.lookup a = some b) : (a, b) ∈ l := by
  induction l with
  | nil => simp [List.lookup] at h
  | cons e rest ih =>
      obtain ⟨k, v⟩ := e
      rw [List.lookup] at h
      cases hak : a == k <;> simp only [hak] at h
      · exact List.mem_cons_of_mem _ (ih h)
      · obtain rfl : v = b := Option.some.inj h
        obtain rfl : a = k := eq_of_beq hak
        exact List.mem_cons_self _ _

theorem chanOpenH_hUpdate {α : Type} (h : Heap α) (id k : Nat)
    (f : Chan α → Chan α) (hf : ∀ c : Chan α, (f c).closed = c.closed) :
    chanOpenH (hUpdate h id f) k = chanOpenH h k := by
  unfold chanOpenH hUpdate
  by_cases hk : k = id
  · subst hk
    rw [if_pos rfl]
    cases h k with
    | none => rfl
    | some c => simp [Option.map, hf]
  · rw [if_neg hk]

theorem chanOpenH_hUpdate_ne {α : Type} (h : Heap α) {id k : Nat}
    (f : Chan α → Chan α) (hk : k ≠ id) :
    chanOpenH (hUpdate h id f) k = chanOpenH h k := by
  unfold chanOpenH hUpdate
  rw [if_neg hk]

theorem chanOpenH_hInsert {α : Type} (h : Heap α) (id k : Nat) (c : Chan α) :
    chanOpenH (hInsert h id c) k = if k = id then !c.closed else chanOpenH h k := by
  unfold chanOpenH hInsert
  by_cases hk : k = id
  · rw [if_pos hk, if_pos hk]
  · rw [if_neg hk, if_neg hk]

/-- One-step preservation of the invariant. The `taskDeliver`-on-closed
branch (the Go panic) is refuted by the invariant itself: an in-flight
dispatch always targets an open channel. -/
theorem step_inv {α : Type} {s s' : SysState α} {a : Action α}
    (hinv : Inv s) (hstep : step s a = some s') : Inv s' := by
  obtain ⟨hp, hsub, htask, hlock⟩ := hinv
  cases a with
  | subscribe t =>
      simp only [step] at hstep
      split at hstep
      · exact Option.noConfusion hstep
      · injection hstep with h
        subst h
        rename_i hl
        have hl' : s.lock = false := by simpa using hl
        refine ⟨hp, ?_, ?_, ?_⟩
        · intro e he
          simp only [Publisher.SubscribeTopic] at he ⊢
          rw [chanOpenH_hInsert]
          rcases List.mem_append.mp he with h1 | h1
          · by_cases hk : e.1 = s.pub.nextId
            · rw [if_pos hk]; rfl
            · rw [if_neg hk]; exact hsub e h1
          · have : e = (s.pub.nextId, t) := by simpa using h1
            subst this
            rw [if_pos rfl]; rfl
        · intro u hu
          simp only [Publisher.SubscribeTopic]
          rw [chanOpenH_hInsert]
          by_cases hk : u.1 = s.pub.nextId
          · rw [if_pos hk]; rfl
          · rw [if_neg hk]; exact htask u hu
        · intro _; exact hlock hl'
  | evict id =>
      simp only [step] at hstep
      split at hstep
      · exact Option.noConfusion hstep
      · injection hstep with h
        subst h
        rename_i hl
        have hl' : s.lock = false := by simpa using hl
        have htasks0 : s.tasks = [] := hlock hl'
        unfold Publisher.Evict
        cases hm : s.pub.subscribers.lookup id with
        | none =>
            exact ⟨hp, hsub, fun u hu => htask u hu, fun _ => htasks0⟩
        | some t0 =>
            refine ⟨hp, ?_, ?_, fun _ => htasks0⟩
            · intro e he
              have he' : e ∈ List.filter (fun e => e.1 != id) s.pub.subscribers := he
              have hmem := List.mem_filter.mp he'
              have hne : e.1 ≠ id := by
                have := hmem.2
                simpa using this
              show chanOpenH (hUpdate s.pub.heap id evictCloseStep) e.1 = true
              rw [chanOpenH_hUpdate_ne _ _ hne]
              exact hsub e hmem.1
            · intro u hu
              have hu' : u ∈ s.tasks := hu
              rw [htasks0] at hu'
              exact absurd hu' (List.not_mem_nil u)
  | closeAll =>
      simp only [step] at hstep
      split at hstep
      · exact Option.noConfusion hstep
      · injection hstep with h
        subst h
        rename_i hl
        have hl' : s.lock = false := by simpa using hl
        have htasks0 : s.tasks = [] := hlock hl'
        refine ⟨hp, ?_, ?_, fun _ => htasks0⟩
        · intro e he
          simp only [Publisher.Close] at he
          exact absurd he (List.not_mem_nil e)
        · intro u hu
          rw [htasks0] at hu
          exact absurd hu (List.not_mem_nil u)
  | startPublish v =>
      simp only [step] at hstep
      split at hstep
      · exact Option.noConfusion hstep
      · injection hstep with h
        subst h
        refine ⟨hp, hsub, ?_, ?_⟩
        · intro u hu
          obtain ⟨e, he, rfl⟩ := List.mem_map.mp hu
          exact hsub e he
        · intro hfalse
          exact absurd hfalse (by simp)
  | taskSkip id =>
      simp only [step] at hstep
      split at hstep
      · rename_i t v hm
        split at hstep
        · exact Option.noConfusion hstep
        · injection hstep with h
          subst h
          refine ⟨hp, hsub, ?_, ?_⟩
          · intro u hu
            exact htask u (List.mem_filter.mp hu).1
          · intro hl'
            rw [hlock hl']
            rfl
      · exact Option.noConfusion hstep
  | taskDeliver id =>
      simp only [step] at hstep
      split at hstep
      · rename_i t v hm
        split at hstep
        · rename_i hacc
          split at hstep
          · rename_i c hc
            split at hstep
            · -- send on a closed channel: refuted by the invariant
              rename_i hclosed
              have hmem : (id, t, v) ∈ s.tasks := lookup_mem hm
              have hopen := htask _ hmem
              unfold chanOpenH at hopen
              rw [hc] at hopen
              simp [hclosed] at hopen
            · split at hstep
              · injection hstep with h
                subst h
                refine ⟨hp, ?_, ?_, ?_⟩
                · intro e he
                  have he' : e ∈ s.pub.subscribers := he
                  show chanOpenH (hUpdate s.pub.heap id (fun d => d.send v)) e.1 = true
                  rw [chanOpenH_hUpdate s.pub.heap id _ (fun d => d.send v) (fun d => rfl)]
                  exact hsub e he'
                · intro u hu
                  have hu' : u ∈ List.filter (fun e => e.1 != id) s.tasks := hu
                  show chanOpenH (hUpdate s.pub.heap id (fun d => d.send v)) u.1 = true
                  rw [chanOpenH_hUpdate s.pub.heap id _ (fun d => d.send v) (fun d => rfl)]
                  exact htask u (List.mem_filter.mp hu').1
                · intro hl'
                  show List.filter (fun e => e.1 != id) s.tasks = []
                  rw [hlock hl']
                  rfl
              · exact Option.noConfusion hstep
          · exact Option.noConfusion hstep
        · exact Option.noConfusion hstep
      · exact Option.noConfusion hstep
  | taskAbandon id =>
      simp only [step] at hstep
      split at hstep
      · rename_i t v hm
        split at hstep
        · split at hstep
          · rename_i c hc
            split at hstep
            · injection hstep with h
              subst h
              refine ⟨hp, hsub, ?_, ?_⟩
              · intro u hu
                exact htask u (List.mem_filter.mp hu).1
              · intro hl'
                rw [hlock hl']
                rfl
            · exact Option.noConfusion hstep
          · exact Option.noConfusion hstep
        · exact Option.noConfusion hstep
      · exact Option.noConfusion hstep
  | endPublish =>
      simp only [step] at hstep
      split at hstep
      · injection hstep with h
        subst h
        rename_i hguard
        have htasks0 : s.tasks = [] := by
          have := (Bool.and_eq_true _ _).mp hguard
          exact List.isEmpty_iff.mp this.2
        exact ⟨hp, hsub, fun u hu => htask u hu, fun _ => htasks0⟩
      · exact Option.noConfusion hstep
  | recv id =>
      simp only [step] at hstep
      split at hstep
      · rename_i c hc
        split at hstep
        · exact Option.noConfusion hstep
        · injection hstep with h
          subst h
          refine ⟨hp, ?_, ?_, hlock⟩
          · intro e he
            have he' : e ∈ s.pub.subscribers := he
            show chanOpenH
              (hUpdate s.pub.heap id (fun d => { d with buf := d.buf.tail })) e.1 = true
            rw [chanOpenH_hUpdate s.pub.heap id _
              (fun d => { d with buf := d.buf.tail }) (fun d => rfl)]
            exact hsub e he'
          · intro u hu
            have hu' : u ∈ s.tasks := hu
            show chanOpenH
              (hUpdate s.pub.heap id (fun d => { d with buf := d.buf.tail })) u.1 = true
            rw [chanOpenH_hUpdate s.pub.heap id _
              (fun d => { d with buf := d.buf.tail }) (fun d => rfl)]
            exact htask u hu'
      · exact Option.noConfusion hstep

/-- The invariant holds along any run. -/
theorem run_inv {α : Type} {acts : List (Action α)} {s s' : SysState α}
    (hinv : Inv s) (hrun : run s acts = some s') : Inv s' := by
  induction acts generalizing s with
  | nil =>
      simp only [run] at hrun
      obtain rfl : s = s' := Option.some.inj hrun
      exact hinv
  | cons a rest ih =>
      simp only [run] at hrun
      cases hstep : step s a with
      | none => rw [hstep] at hrun; exact Option.noConfusion hrun
      | some s1 =>
          rw [hstep] at hrun
          exact ih (step_inv hinv hstep) hrun

/-- The invariant holds in the initial state. -/
theorem init_inv (α : Type) (buffer : Nat) : Inv (initState α buffer) := by
  refine ⟨rfl, ?_, ?_, fun _ => rfl⟩
  · intro e he
    exact absurd he (List.not_mem_nil e)
  · intro u hu
    exact absurd hu (List.not_mem_nil u)

/-- Every reachable state satisfies the invariant. -/
theorem reach_inv {α : Type} {buffer : Nat} {s : SysState α}
    (hs : Reach buffer s) : Inv s := by
  obtain ⟨acts, hrun⟩ := hs
  exact run_inv (init_inv α buffer) hrun

/-!
Concrete scenarios used by the claim theorems.
-/

/-- A concrete message with event `"x"` and `Expire = 0`. -/
def msgX : Message String :=
  { Event := "x", Data := "payload", Source := "src"
    TimeStamp := "2026-01-01T00:00:00Z", Expire := 0 }

/-- A concrete message with event `"y"` and `Expire = 0`. -/
def msgY : Message String :=
  { Event := "y", Data := "payload", Source := "src"
    TimeStamp := "2026-01-01T00:00:00Z", Expire := 0 }

/-- A buffer-1 publisher with one unfiltered subscription, channel id 0. -/
def pubOne : Publisher String := ((NewPublisher String 1).Subscribe).2

/-- The publisher `pubOne` after one publish: the queue of subscription 0
holds one undelivered buffered message. -/
def pubBuffered : Publisher String := (pubOne.Publish msgX).1

/-- A buffer-1 publisher with one subscription filtered on `Event == "x"`,
channel id 0. -/
def pubFiltered : Publisher String :=
  ((NewPublisher String 1).SubscribeTopic (some (fun m => m.Event == "x"))).2

/-- Event trace of the interleaving system reaching a state in which
`Publish` holds the registry lock while its dispatch goroutine is blocked on
the full capacity-1 queue of subscription 0: subscribe without a filter,
publish once (filling the queue), start a second publish. -/
def cexActs : List (Action String) :=
  [.subscribe none, .startPublish msgX, .taskDeliver 0, .endPublish,
   .startPublish msgX]

/-- The state reached by `cexActs`: lock held, one in-flight dispatch
goroutine whose target queue is full. -/
def demoWaitState : SysState String :=
  { pub := { buffer := 1
             subscribers := [(0, none)]
             heap := hUpdate (hInsert (fun _ => none) 0 (Chan.mk0 String 1)) 0
                       (fun d => d.send msgX)
             nextId := 1 }
    lock := true
    tasks := [(0, none, msgX)]
    panicked := false }

theorem demoWaitState_reachable :
    run (initState String 1) cexActs = some demoWaitState := rfl

/-!
The claim theorems.
-/

/-- Claim C1 (code bug evidence). The claim says every subscription queue is
closed exactly once over its lifetime and that calling `Evict` twice in a
row closes it exactly once. The code violates this as soon as the queue
holds a buffered message: before eviction subscription 0 has one buffered
message and `closeCount = 0`; after two `Evict` calls the channel has
`closed = false` and `closeCount = 0` — the guarding `select` of the first
call consumed the buffered message instead of closing, and the second call
was a no-op on the now-unregistered channel, so the queue is closed zero
times, not exactly once, and a message is silently lost. -/
theorem evict_twice_with_buffered_message_never_closes :
    pubBuffered.heap 0
      = some { cap := 1, buf := [msgX], closed := false, closeCount := 0 }
    ∧ ((pubBuffered.Evict 0).Evict 0).heap 0
      = some { cap := 1, buf := [], closed := false, closeCount := 0 } :=
  ⟨by decide, by decide⟩

/-- Claim C2 (code bug evidence). The claim says one `Evict` of a live
subscription removes it from the registry and closes its queue regardless of
how many messages are buffered. On the code, with one buffered message, the
registry entry is removed but the queue is left open (`closed = false`,
`closeCount = 0`) and the buffered message has been consumed by the guarding
`select` — readers never observe end-of-stream. -/
theorem evict_with_buffered_message_leaves_queue_open :
    (pubBuffered.Evict 0).subscribers = []
    ∧ (pubBuffered.Evict 0).heap 0
      = some { cap := 1, buf := [], closed := false, closeCount := 0 } :=
  ⟨rfl, by decide⟩

/-- Claim C3 (code bug evidence). The claim says that after `Close` the
registry is empty, every previously-live queue is closed, and a subsequent
publish is a no-op. On the code, with one buffered message in the only
queue: the registry is indeed empty and the subsequent publish indeed
changes no queue, but the queue is left open (`closed = false`,
`closeCount = 0`) with its buffered message consumed, so readers never
observe end-of-stream. -/
theorem close_with_buffered_message_leaves_queue_open :
    pubBuffered.Close.subscribers = []
    ∧ pubBuffered.Close.heap 0
      = some { cap := 1, buf := [], closed := false, closeCount := 0 }
    ∧ (pubBuffered.Close.Publish msgX).1.heap 0
      = some { cap := 1, buf := [], closed := false, closeCount := 0 } :=
  ⟨rfl, by decide, by decide⟩

/-- Claim C4. For a live subscription `id` carrying filter `F`, a publish of
`v` updates its queue to `c.send v` exactly when `F v` is true and the queue
has room, and leaves it untouched otherwise; in particular when `F v` is
false the queue occupancy is unchanged by the dispatch. -/
theorem publish_delivers_iff_filter_accepts {α : Type} (p : Publisher α)
    (v : Message α) (id : Nat) (F : Message α → Bool) (c : Chan α)
    (hreg : p.subscribers.lookup id = some (some F))
    (hheap : p.heap id = some c) :
    (p.Publish v).1.heap id =
      some (if F v && decide (c.buf.length < c.cap) then c.send v else c) := by
  show (match p.subscribers.lookup id, p.heap id with
        | some topic, some c0 => some (SendTopic c0 topic v).1
        | _, hc => hc) = _
  rw [hreg, hheap]
  unfold SendTopic topicAccepts
  by_cases hF : F v
  · by_cases hroom : c.buf.length < c.cap
    · simp [hF, hroom]
    · simp [hF, hroom]
  · simp [hF]

/-- Witness for claim C4: on a buffer-1 publisher whose only subscription
filters on `Event == "x"`, publishing the event-"y" message leaves the
fresh queue untouched, publishing the event-"x" message enqueues it. -/
theorem publish_delivers_iff_filter_accepts_witness :
    (pubFiltered.Publish msgY).1.heap 0 = some (Chan.mk0 String 1)
    ∧ (pubFiltered.Publish msgX).1.heap 0
      = some ((Chan.mk0 String 1).send msgX) := by
  have h1 := publish_delivers_iff_filter_accepts pubFiltered msgY 0
    (fun m => m.Event == "x") (Chan.mk0 String 1) rfl rfl
  have h2 := publish_delivers_iff_filter_accepts pubFiltered msgX 0
    (fun m => m.Event == "x") (Chan.mk0 String 1) rfl rfl
  refine ⟨?_, ?_⟩
  · rw [h1]; decide
  · rw [h2]; decide

/-- Claim C5. For a live subscription `id` registered without a filter,
if its queue has room at dispatch time then the published message is on the
queue after `Publish` returns (it is the new last element). -/
theorem publish_nofilter_delivers_when_room {α : Type} (p : Publisher α)
    (v : Message α) (id : Nat) (c : Chan α)
    (hreg : p.subscribers.lookup id = some none)
    (hheap : p.heap id = some c)
    (hroom : c.buf.length < c.cap) :
    (p.Publish v).1.heap id = some (c.send v) ∧ v ∈ (c.send v).buf := by
  constructor
  · show (match p.subscribers.lookup id, p.heap id with
          | some topic, some c0 => some (SendTopic c0 topic v).1
          | _, hc => hc) = _
    rw [hreg, hheap]
    unfold SendTopic topicAccepts
    simp [hroom]
  · unfold Chan.send
    simp

/-- Witness for claim C5: on a buffer-1 publisher with one unfiltered
subscription, publishing one message puts it on the queue. -/
theorem publish_nofilter_delivers_when_room_witness :
    (pubOne.Publish msgX).1.heap 0 = some ((Chan.mk0 String 1).send msgX)
    ∧ msgX ∈ ((Chan.mk0 String 1).send msgX).buf :=
  publish_nofilter_delivers_when_room pubOne msgX 0 (Chan.mk0 String 1)
    rfl rfl (by decide)

/-- Claim C6, the concrete scenario: capacity-1 queue, subscription filtered
on `Event == "x"`, the event-"x" message with `Expire = 0` published twice
back to back. The first publish succeeds (the queue then holds exactly that
one message) and blocks 0 seconds; the second publish finds the queue full
and with `Expire = 0` abandons immediately (blocks 0 seconds), the queue
still holding exactly one message, and neither call reports an error (the
model returns normally both times). -/
theorem capacity_one_expire_zero_scenario :
    (pubFiltered.Publish msgX).1.heap 0
      = some { cap := 1, buf := [msgX], closed := false, closeCount := 0 }
    ∧ (pubFiltered.Publish msgX).2 = 0
    ∧ ((pubFiltered.Publish msgX).1.Publish msgX).1.heap 0
      = some { cap := 1, buf := [msgX], closed := false, closeCount := 0 }
    ∧ ((pubFiltered.Publish msgX).1.Publish msgX).2 = 0 :=
  ⟨by decide, by decide, by decide, by decide⟩

/-- Claim C7 counterexample. The claim states the registry lock is never
held while a dispatch task is waiting on a subscriber queue. It is false on
the code: the state reached by `cexActs` (a second publish against a full
capacity-1 queue) is reachable, has the lock held, and has an in-flight
dispatch goroutine blocked on the full open queue — `Publish` holds the
lock for its whole body, including the join on its dispatch goroutines. -/
theorem lock_held_while_dispatch_waits_cex :
    ¬ (∀ s : SysState String, Reach 1 s → s.lock = true →
        s.tasks.any (taskWaiting s.pub.heap) = false) := by
  intro hclaim
  have h := hclaim demoWaitState ⟨cexActs, demoWaitState_reachable⟩ rfl
  have hw : demoWaitState.tasks.any (taskWaiting demoWaitState.pub.heap) = true := by
    decide
  rw [h] at hw
  exact Bool.false_ne_true hw

/-- Claim C7 amended: the registry lock is held for the entire publish
operation, including while dispatch tasks wait on subscriber queues —
whenever a dispatch task is in flight in a reachable state, the lock is
held, so concurrent publishes are serialized and one slow subscriber delays
unrelated publishes (the serialization the spec flags as an open
question). -/
theorem lock_held_whenever_dispatch_in_flight {α : Type} {buffer : Nat}
    {s : SysState α} (hs : Reach buffer s) (ht : s.tasks.isEmpty = false) :
    s.lock = true := by
  obtain ⟨-, -, -, hlock⟩ := reach_inv hs
  cases hl : s.lock with
  | false =>
      rw [hlock hl] at ht
      simp at ht
  | true => rfl

/-- Witness for amended claim C7: the reachable state `demoWaitState` has an
in-flight dispatch task, and the theorem yields that the lock is held
there. -/
theorem lock_held_whenever_dispatch_in_flight_witness :
    demoWaitState.tasks.isEmpty = false ∧ demoWaitState.lock = true :=
  ⟨rfl, lock_held_whenever_dispatch_in_flight
          ⟨cexActs, demoWaitState_reachable⟩ rfl⟩

/-- Claim C8. In every reachable state of the interleaving system no
goroutine has panicked, and every in-flight dispatch attempt targets an
existing, not-closed channel. Closing a queue requires the lock and the
lock is held by `Publish` for as long as any of its dispatch attempts is in
flight, so a dispatch never encounters a concurrently closed queue: the Go
send-on-closed-channel panic is unreachable and no panic or error ever
reaches the publisher, and a blocked attempt is always free to abandon at
its timeout (the `taskAbandon` step), so it never deadlocks. -/
theorem inflight_dispatch_never_targets_closed_queue {α : Type}
    {buffer : Nat} {s : SysState α} (hs : Reach buffer s) :
    s.panicked = false
    ∧ s.tasks.all (fun t => chanOpenH s.pub.heap t.1) = true := by
  obtain ⟨hp, -, htask, -⟩ := reach_inv hs
  exact ⟨hp, List.all_eq_true.mpr htask⟩

/-- Witness for claim C8: at the reachable state `demoWaitState` (one
dispatch in flight against a full queue) the theorem yields that nothing
panicked and the dispatch target is open. -/
theorem inflight_dispatch_never_targets_closed_queue_witness :
    demoWaitState.panicked = false
    ∧ demoWaitState.tasks.all
        (fun t => chanOpenH demoWaitState.pub.heap t.1) = true :=
  inflight_dispatch_never_targets_closed_queue
    ⟨cexActs, demoWaitState_reachable⟩

/-- Claim C9. `Publish` never modifies the registry: the subscription set
with its filters (`subscribers`), the configured buffer size and the id
source are exactly what they were before the call, for every message and
every publisher state. -/
theorem publish_preserves_registry {α : Type} (p : Publisher α)
    (v : Message α) :
    (p.Publish v).1.subscribers = p.subscribers
    ∧ (p.Publish v).1.buffer = p.buffer
    ∧ (p.Publish v).1.nextId = p.nextId :=
  ⟨rfl, rfl, rfl⟩

/-- Claim C10. `Subscribe` is the same operation as `SubscribeTopic` with
the nil filter: the two calls are definitionally equal (the source
delegates), and the common behavior is that the returned channel is a fresh
queue whose capacity is the configured buffer, registered under the
accept-all `none` filter as exactly one new registry entry. -/
theorem subscribe_equiv_subscribeTopic_none {α : Type} (p : Publisher α) :
    p.Subscribe = p.SubscribeTopic none
    ∧ (p.Subscribe).2.heap (p.Subscribe).1 = some (Chan.mk0 α p.buffer)
    ∧ (Chan.mk0 α p.buffer).cap = p.buffer
    ∧ (p.Subscribe).2.subscribers
      = p.subscribers ++ [((p.Subscribe).1, (none : TopicFn α))]
    ∧ (p.Subscribe).2.subscribers.length = p.subscribers.length + 1 := by
  refine ⟨rfl, ?_, rfl, rfl, ?_⟩
  · show hInsert p.heap p.nextId (Chan.mk0 α p.buffer) p.nextId
      = some (Chan.mk0 α p.buffer)
    unfold hInsert
    rw [if_pos rfl]
  · show (p.subscribers ++ [(p.nextId, (none : TopicFn α))]).length
      = p.subscribers.length + 1
    simp

end PubSubSpec
